import Mathlib

/-
Verification of the monitoring plugin core logic:
normalization layer (formatNodeStats / formatClusterStats / formatRecoveryStats),
refresh controller (interval validation, batch fetch, persisted preferences,
node-difference helper) and topology layout engine (NetworkGraph grouping and
geometry).  Raw telemetry is shallowly embedded with `Option` for absent JSON
fields; a JS property access on a missing required subobject is modelled as an
`Except.error` (a thrown TypeError); JS numbers are modelled as `ℚ`, with
`Option ℚ` where an `undefined`/NaN value can flow through.
-/

namespace Monitoring

/-! ### Shared percentage helpers (formatNodeStats.ts / formatClusterStats.ts) -/

/-- Embeds `getPercentage` of formatNodeStats.ts: `total > 0 ? (used / total) * 100 : 0`. -/
def getPercentage (used total : ℚ) : ℚ :=
  if 0 < total then used / total * 100 else 0

/-- Embeds `getPercentage` of formatClusterStats.ts: `if (!total) return 0; return (used / total) * 100`. -/
def getPercentageCluster (used total : ℚ) : ℚ :=
  if total = 0 then 0 else used / total * 100

/-- JS `(used / total) * 100` under the node-stats guard, where either operand may be
`undefined` (`none`); `undefined > 0` is `false`, and arithmetic on `undefined` is NaN
(also `none`). -/
def jsGetPercentage (used total : Option ℚ) : Option ℚ :=
  match total with
  | some t =>
    if 0 < t then
      match used with
      | some u => some (u / t * 100)
      | none => none
    else some 0
  | none => some 0

/-- JS `getPercentage` of formatClusterStats.ts on possibly-`undefined` operands:
`!total` is true for `undefined` and for `0`. -/
def jsGetPercentageCluster (used total : Option ℚ) : Option ℚ :=
  match total with
  | some t =>
    if t = 0 then some 0
    else
      match used with
      | some u => some (u / t * 100)
      | none => none
  | none => some 0

/-- JS subtraction where either operand may be `undefined` (result NaN, kept as `none`). -/
def jsSub (a b : Option ℚ) : Option ℚ :=
  match a, b with
  | some x, some y => some (x - y)
  | _, _ => none

/-! ### formatRecoveryStats (src/unnamed/part_003)

The raw `_recovery?detailed` body is a map index-name → `{shards: [...]}`.  Every
field the function reads from a shard is guarded (`|| {}` / `?? default`), so the
transform is a pure total function. -/

structure RawNodeRef where
  host : Option String
  name : Option String
  deriving DecidableEq

structure RawFiles where
  total : Option ℤ
  recovered : Option ℤ
  percent : Option String
  deriving DecidableEq

structure RawSize where
  total_in_bytes : Option ℤ
  recovered_in_bytes : Option ℤ
  percent : Option String
  deriving DecidableEq

structure RawTranslog where
  total : Option ℤ
  recovered : Option ℤ
  percent : Option String
  deriving DecidableEq

structure RawIndexStats where
  size : Option RawSize
  files : Option RawFiles
  deriving DecidableEq

structure RawShard where
  id : ℤ
  total_time_in_millis : Option ℤ
  type : Option String
  stage : Option String
  source : Option RawNodeRef
  target : Option RawNodeRef
  index : Option RawIndexStats
  translog : Option RawTranslog
  deriving DecidableEq

structure RawIndexData where
  shards : Option (List RawShard)
  deriving DecidableEq

/-- One flattened `RecoveryShardRecord` as pushed into `parsedData`. -/
structure RecoveryRecord where
  index : String
  shard : ℤ
  time : Option ℤ
  type : Option String
  stage : Option String
  source_host : String
  source_node : String
  target_host : String
  target_node : String
  files : ℤ
  files_recovered : ℤ
  files_percent : String
  files_total : ℤ
  bytes : ℤ
  bytes_recovered : ℤ
  bytes_percent : String
  bytes_total : ℤ
  translog_recovered : ℤ
  translog_percent : String
  translog_total : ℤ
  deriving DecidableEq

/-- Body of the `shards.forEach` callback: builds one record from one shard. -/
def mkShardRecord (indexName : String) (shard : RawShard) : RecoveryRecord :=
  let source := shard.source.getD ⟨none, none⟩
  let target := shard.target.getD ⟨none, none⟩
  let indexStats := shard.index.getD ⟨none, none⟩
  let indexSize := indexStats.size.getD ⟨none, none, none⟩
  let indexFiles := indexStats.files.getD ⟨none, none, none⟩
  let transLog := shard.translog.getD ⟨none, none, none⟩
  { index := indexName
    shard := shard.id
    time := shard.total_time_in_millis
    type := shard.type
    stage := shard.stage
    source_host := source.host.getD "-"
    source_node := source.name.getD "-"
    target_host := target.host.getD "-"
    target_node := target.name.getD "-"
    files := indexFiles.total.getD 0
    files_recovered := indexFiles.recovered.getD 0
    files_percent :=
      if indexFiles.total.getD 0 = 0 then "-" else indexFiles.percent.getD "0%"
    files_total := indexFiles.total.getD 0
    bytes := indexSize.recovered_in_bytes.getD 0
    bytes_recovered := indexSize.recovered_in_bytes.getD 0
    bytes_percent :=
      if indexSize.total_in_bytes.getD 0 = 0 then "-" else indexSize.percent.getD "0%"
    bytes_total := indexSize.total_in_bytes.getD 0
    translog_recovered := transLog.recovered.getD 0
    translog_percent :=
      if transLog.total.getD 0 = 0 then "-" else transLog.percent.getD "0%"
    translog_total := transLog.total.getD 0 }

/-- Embeds `formatRecoveryStats`: `Object.entries(rawData)` flattened over
`indexData.shards ?? []`. -/
def formatRecoveryStats (rawData : List (String × RawIndexData)) : List RecoveryRecord :=
  rawData.flatMap fun p => (p.2.shards.getD []).map (mkShardRecord p.1)

/-! ### formatNodeStats (src/server/routes/utils/formatNodeStats.ts)

`node.os.mem.used_in_bytes` etc. are unguarded: if `os`, `os.mem`, `os.swap`,
`os.cpu`, `fs` or `fs.total` is absent the property access on `undefined`
throws, modelled as `Except.error`.  Leaf numbers stay `Option ℚ`
(`undefined` flows into the percentage computation). -/

structure RawMem where
  used_in_bytes : Option ℚ
  total_in_bytes : Option ℚ
  deriving DecidableEq

structure RawCpu where
  percent : Option ℚ
  deriving DecidableEq

structure RawOs where
  mem : Option RawMem
  swap : Option RawMem
  cpu : Option RawCpu
  deriving DecidableEq

structure RawFsTotal where
  total_in_bytes : Option ℚ
  free_in_bytes : Option ℚ
  deriving DecidableEq

structure RawFs where
  total : Option RawFsTotal
  deriving DecidableEq

structure RawAttributes where
  zone : Option String
  deriving DecidableEq

structure RawNodeStats where
  name : Option String
  host : Option String
  roles : Option (List String)
  attributes : Option RawAttributes
  os : Option RawOs
  fs : Option RawFs
  deriving DecidableEq

/-- Output record of `formatNodeStats` for one node. -/
structure NodeRecord where
  id : String
  name : Option String
  host : Option String
  roles : Option (List String)
  zone : Option String
  cpu_percent : Option ℚ
  mem_total : Option ℚ
  mem_used : Option ℚ
  mem_percent : Option ℚ
  swap_total : Option ℚ
  swap_used : Option ℚ
  swap_percent : Option ℚ
  fs_total : Option ℚ
  fs_used : Option ℚ
  fs_percent : Option ℚ
  deriving DecidableEq

/-- JS property access on a possibly-`undefined` object: absent → TypeError. -/
def jsAccess (o : Option α) (msg : String) : Except String α :=
  match o with
  | some v => Except.ok v
  | none => Except.error msg

/-- The `Object.entries(nodesObj).map` callback for one `[id, node]` pair. -/
def formatOneNode (id : String) (node : RawNodeStats) : Except String NodeRecord := do
  let os ← jsAccess node.os "TypeError: node.os is undefined"
  let mem ← jsAccess os.mem "TypeError: node.os.mem is undefined"
  let usedMem := mem.used_in_bytes
  let totalMem := mem.total_in_bytes
  let swap ← jsAccess os.swap "TypeError: node.os.swap is undefined"
  let usedSwap := swap.used_in_bytes
  let totalSwap := swap.total_in_bytes
  let fs ← jsAccess node.fs "TypeError: node.fs is undefined"
  let fsTotal ← jsAccess fs.total "TypeError: node.fs.total is undefined"
  let totalFs := fsTotal.total_in_bytes
  let freeFs := fsTotal.free_in_bytes
  let usedFs := jsSub totalFs freeFs
  let cpu ← jsAccess os.cpu "TypeError: node.os.cpu is undefined"
  pure
    { id := id
      name := node.name
      host := node.host
      roles := node.roles
      zone := node.attributes.bind (·.zone)
      cpu_percent := cpu.percent
      mem_total := totalMem
      mem_used := usedMem
      mem_percent := jsGetPercentage usedMem totalMem
      swap_total := totalSwap
      swap_used := usedSwap
      swap_percent := jsGetPercentage usedSwap totalSwap
      fs_total := totalFs
      fs_used := usedFs
      fs_percent := jsGetPercentage usedFs totalFs }

/-- Embeds `formatNodeStats`: maps over the raw per-node map entries in order; the
first thrown TypeError propagates. -/
def formatNodeStats : List (String × RawNodeStats) → Except String (List NodeRecord)
  | [] => Except.ok []
  | p :: rest => do
    let record ← formatOneNode p.1 p.2
    let records ← formatNodeStats rest
    pure (record :: records)

/-! ### formatClusterStats (src/server/routes/utils/formatClusterStats.ts)

`rawData.nodes.versions`, `rawData.nodes.jvm...`, `rawData.nodes.fs...` and
`rawData.indices...` are unguarded; only the `nodes.count` role counts (and the
top-level scalars) are optional-chained with `?? 0`. -/

structure RawHeap where
  heap_used_in_bytes : Option ℚ
  heap_max_in_bytes : Option ℚ
  deriving DecidableEq

structure RawJvm where
  max_uptime_in_millis : Option ℚ
  mem : Option RawHeap
  threads : Option ℚ
  deriving DecidableEq

structure RawCount where
  total : Option ℚ
  cluster_manager : Option ℚ
  coordinating_only : Option ℚ
  data : Option ℚ
  ingest : Option ℚ
  master : Option ℚ
  remote_cluster_client : Option ℚ
  search : Option ℚ
  warm : Option ℚ
  deriving DecidableEq

structure RawClusterFs where
  total_in_bytes : Option ℚ
  free_in_bytes : Option ℚ
  deriving DecidableEq

structure RawClusterNodes where
  versions : Option (List String)
  jvm : Option RawJvm
  count : Option RawCount
  fs : Option RawClusterFs
  deriving DecidableEq

structure RawShardsAgg where
  total : Option ℚ
  primaries : Option ℚ
  replication : Option ℚ
  deriving DecidableEq

structure RawDocs where
  count : Option ℚ
  deleted : Option ℚ
  deriving DecidableEq

structure RawStore where
  size_in_bytes : Option ℚ
  deriving DecidableEq

structure RawSegments where
  count : Option ℚ
  deriving DecidableEq

structure RawIndices where
  count : Option ℚ
  shards : Option RawShardsAgg
  docs : Option RawDocs
  store : Option RawStore
  segments : Option RawSegments
  deriving DecidableEq

structure RawClusterStats where
  cluster_name : Option String
  status : Option String
  nodes : Option RawClusterNodes
  indices : Option RawIndices
  deriving DecidableEq

/-- Output of `formatClusterStats`. -/
structure ClusterStatsRecord where
  cluster_name : Option String
  status : Option String
  version : Option (List String)
  uptime : Option ℚ
  nodes_total : ℚ
  nodes_cluster_manager : ℚ
  nodes_coordinating_only : ℚ
  nodes_data : ℚ
  nodes_ingest : ℚ
  nodes_master : ℚ
  nodes_remote_cluster_client : ℚ
  nodes_search : ℚ
  nodes_warm : ℚ
  jvm_mem_used : Option ℚ
  jvm_mem_total : Option ℚ
  jvm_mem_percent : Option ℚ
  jvm_threads : Option ℚ
  fs_used : Option ℚ
  fs_total : Option ℚ
  fs_percent : Option ℚ
  indices_count : Option ℚ
  shards_total : Option ℚ
  shards_primaries : Option ℚ
  shards_replication : Option ℚ
  docs_count : Option ℚ
  docs_deleted : Option ℚ
  store_size_in_bytes : Option ℚ
  segments_count : Option ℚ
  deriving DecidableEq

/-- Embeds `rawData?.nodes?.count?.FIELD ?? 0`. -/
def countField (rawNodes : Option RawClusterNodes) (f : RawCount → Option ℚ) : ℚ :=
  ((rawNodes.bind (·.count)).bind f).getD 0

/-- Embeds `formatClusterStats`: the object literal evaluated field by field; unguarded
accesses throw in source order. -/
def formatClusterStats (rawData : RawClusterStats) : Except String ClusterStatsRecord := do
  let nodes ← jsAccess rawData.nodes "TypeError: rawData.nodes is undefined"
  let version := nodes.versions
  let jvm ← jsAccess nodes.jvm "TypeError: rawData.nodes.jvm is undefined"
  let uptime := jvm.max_uptime_in_millis
  let mem ← jsAccess jvm.mem "TypeError: rawData.nodes.jvm.mem is undefined"
  let fs ← jsAccess nodes.fs "TypeError: rawData.nodes.fs is undefined"
  let indices ← jsAccess rawData.indices "TypeError: rawData.indices is undefined"
  let shards ← jsAccess indices.shards "TypeError: rawData.indices.shards is undefined"
  let docs ← jsAccess indices.docs "TypeError: rawData.indices.docs is undefined"
  let store ← jsAccess indices.store "TypeError: rawData.indices.store is undefined"
  let segments ← jsAccess indices.segments "TypeError: rawData.indices.segments is undefined"
  pure
    { cluster_name := rawData.cluster_name
      status := rawData.status
      version := version
      uptime := uptime
      nodes_total := countField rawData.nodes (·.total)
      nodes_cluster_manager := countField rawData.nodes (·.cluster_manager)
      nodes_coordinating_only := countField rawData.nodes (·.coordinating_only)
      nodes_data := countField rawData.nodes (·.data)
      nodes_ingest := countField rawData.nodes (·.ingest)
      nodes_master := countField rawData.nodes (·.master)
      nodes_remote_cluster_client := countField rawData.nodes (·.remote_cluster_client)
      nodes_search := countField rawData.nodes (·.search)
      nodes_warm := countField rawData.nodes (·.warm)
      jvm_mem_used := mem.heap_used_in_bytes
      jvm_mem_total := mem.heap_max_in_bytes
      jvm_mem_percent := jsGetPercentageCluster mem.heap_used_in_bytes mem.heap_max_in_bytes
      jvm_threads := jvm.threads
      fs_used := jsSub fs.total_in_bytes fs.free_in_bytes
      fs_total := fs.total_in_bytes
      fs_percent :=
        jsGetPercentageCluster (jsSub fs.total_in_bytes fs.free_in_bytes) fs.total_in_bytes
      indices_count := indices.count
      shards_total := shards.total
      shards_primaries := shards.primaries
      shards_replication := shards.replication
      docs_count := docs.count
      docs_deleted := docs.deleted
      store_size_in_bytes := store.size_in_bytes
      segments_count := segments.count }

/-! ### Refresh controller (src/public/components/app.tsx)

The component state relevant to fetching and scheduling, with each `fetchX`
callback embedded as a state transformer over the outcome of its HTTP request
(`Except` models a rejected promise; the `catch` clause is the `.error` branch,
the `finally` clause clears the loading flag on both paths). -/

/-- Embeds `ClusterNode` as consumed by the client (fields used by the layout engine
and `getNodeDifferences`). -/
structure Node where
  id : String
  name : String
  host : String
  roles : List String
  zone : Option String
  deriving DecidableEq

/-- Embeds `ClusterHealth` response body. -/
structure ClusterHealth where
  cluster_name : String
  status : String
  number_of_nodes : ℚ
  number_of_data_nodes : ℚ
  active_primary_shards : ℚ
  active_shards : ℚ
  unassigned_shards : ℚ
  initializing_shards : ℚ
  active_shards_percent_as_number : ℚ
  deriving DecidableEq

/-- Snapshot identity as stored in `snapshotsData` (nested per-index details
are not inspected by the fetch logic). -/
structure Snapshot where
  snapshot : String
  repository : String
  uuid : String
  state : String
  deriving DecidableEq

/-- The slice of `MonitoringApp` React state written by the fetch callbacks. -/
structure AppState where
  nodesData : List Node
  recoveryData : List RecoveryRecord
  clusterHealth : Option ClusterHealth
  clusterStats : Option ClusterStatsRecord
  clusterConfig : Option (List String)
  snapshotsData : List Snapshot
  toasts : List String
  lastRefreshTime : Option String
  loading : Bool
  clusterHealthLoading : Bool
  clusterStatsLoading : Bool
  clusterConfigLoading : Bool
  snapshotsLoading : Bool
  deriving DecidableEq

/-- Embeds `fetchConfig`: on success stores `res.data`; on rejection adds a danger toast. -/
def fetchConfig (res : Except String (List String)) (s : AppState) : AppState :=
  match res with
  | Except.ok d => { s with clusterConfig := some d, clusterConfigLoading := false }
  | Except.error _ =>
    { s with toasts := s.toasts ++ ["Failed to fetch configuration"],
             clusterConfigLoading := false }

/-- Embeds `fetchCluster` (cluster health). -/
def fetchCluster (res : Except String ClusterHealth) (s : AppState) : AppState :=
  match res with
  | Except.ok d => { s with clusterHealth := some d, clusterHealthLoading := false }
  | Except.error _ =>
    { s with toasts := s.toasts ++ ["Failed to fetch cluster data"],
             clusterHealthLoading := false }

/-- Embeds `fetchNodes`. -/
def fetchNodes (res : Except String (List Node)) (s : AppState) : AppState :=
  match res with
  | Except.ok d => { s with nodesData := d, loading := false }
  | Except.error _ =>
    { s with toasts := s.toasts ++ ["Failed to fetch nodes data"], loading := false }

/-- Embeds `fetchRecovery`. -/
def fetchRecovery (res : Except String (List RecoveryRecord)) (s : AppState) : AppState :=
  match res with
  | Except.ok d => { s with recoveryData := d, loading := false }
  | Except.error _ =>
    { s with toasts := s.toasts ++ ["Failed to fetch recovery data"], loading := false }

/-- Embeds `fetchClusterStats`. -/
def fetchClusterStats (res : Except String ClusterStatsRecord) (s : AppState) : AppState :=
  match res with
  | Except.ok d => { s with clusterStats := some d, clusterStatsLoading := false }
  | Except.error _ =>
    { s with toasts := s.toasts ++ ["Failed to fetch cluster stats"],
             clusterStatsLoading := false }

/-- Embeds `fetchSnapshots`: a resolved response without a `snapshots` field warns and
stores `[]`; a rejection adds a danger toast and stores `[]`. -/
def fetchSnapshots (res : Except String (Option (List Snapshot))) (s : AppState) : AppState :=
  match res with
  | Except.ok (some l) => { s with snapshotsData := l, snapshotsLoading := false }
  | Except.ok none =>
    { s with toasts := s.toasts ++ ["No snapshot data available"],
             snapshotsData := [], snapshotsLoading := false }
  | Except.error _ =>
    { s with toasts := s.toasts ++ ["Failed to fetch snapshots"],
             snapshotsData := [], snapshotsLoading := false }

/-- The six independent request outcomes of one refresh cycle. -/
structure FetchResults where
  cluster : Except String ClusterHealth
  nodes : Except String (List Node)
  recovery : Except String (List RecoveryRecord)
  clusterStats : Except String ClusterStatsRecord
  config : Except String (List String)
  snapshots : Except String (Option (List Snapshot))

/-- Embeds `fetchAllData`: `Promise.all` over the six fetches (each of which handles its
own rejection and therefore always resolves), then one `setLastRefreshTime`.
The six callbacks write disjoint state fields, so the join is embedded as their
composition. -/
def fetchAllData (r : FetchResults) (now : String) (s : AppState) : AppState :=
  let s := fetchCluster r.cluster s
  let s := fetchNodes r.nodes s
  let s := fetchRecovery r.recovery s
  let s := fetchClusterStats r.clusterStats s
  let s := fetchConfig r.config s
  let s := fetchSnapshots r.snapshots s
  { s with lastRefreshTime := some now }

/-- The toasts one refresh cycle appends: one per failing kind (plus the
missing-`snapshots`-field warning), in fetch order. -/
def expectedToasts (r : FetchResults) : List String :=
  (match r.cluster with | Except.ok _ => [] | Except.error _ => ["Failed to fetch cluster data"]) ++
  (match r.nodes with | Except.ok _ => [] | Except.error _ => ["Failed to fetch nodes data"]) ++
  (match r.recovery with | Except.ok _ => [] | Except.error _ => ["Failed to fetch recovery data"]) ++
  (match r.clusterStats with | Except.ok _ => [] | Except.error _ => ["Failed to fetch cluster stats"]) ++
  (match r.config with | Except.ok _ => [] | Except.error _ => ["Failed to fetch configuration"]) ++
  (match r.snapshots with
   | Except.ok (some _) => []
   | Except.ok none => ["No snapshot data available"]
   | Except.error _ => ["Failed to fetch snapshots"])

/-! ### Interval validation and scheduling (app.tsx lines 314-328, 555-587) -/

/-- Scheduling-relevant component state: the persisted/displayed interval, the
validation flag, and the single live `setInterval` timer (`none` = no timer,
`some p` = a timer firing every `p` seconds). -/
structure RefreshState where
  autoRefresh : Bool
  refreshInterval : ℤ
  isIntervalValid : Bool
  storedInterval : Option ℤ
  timer : Option ℤ
  deriving DecidableEq

/-- The auto-refresh `useEffect` body re-run after its dependencies changed:
the cleanup cleared the previous timer, and a new one is armed only when
`autoRefresh && isIntervalValid`. -/
def applyScheduleEffect (s : RefreshState) : RefreshState :=
  { s with timer := if s.autoRefresh && s.isIntervalValid then some s.refreshInterval else none }

/-- Embeds `handleIntervalChange(value)`: `setRefreshIntervalPersisted(value)` (state and
localStorage) then `validateInterval(value)` (flag `value >= 30`); both state
updates change the effect dependencies, so the scheduling effect re-runs. -/
def handleIntervalChange (value : ℤ) (s : RefreshState) : RefreshState :=
  applyScheduleEffect
    { s with refreshInterval := value
             storedInterval := some value
             isIntervalValid := decide (value ≥ 30) }

/-! ### Persisted preferences (app.tsx lines 248-256, 277-283) -/

/-- Embeds `getLocalStorageItem(key, defaultValue)`: absent item, empty item (falsy)
or a `JSON.parse` throw (`parse` returning `none`) all yield the default. -/
def getLocalStorageItem (storage : String → Option String) (parse : String → Option α)
    (key : String) (defaultValue : α) : α :=
  match storage key with
  | none => defaultValue
  | some item =>
    if item = "" then defaultValue
    else
      match parse item with
      | some v => v
      | none => defaultValue

/-- Initial `autoRefresh` state: stored flag with default `false`. -/
def initialAutoRefresh (storage : String → Option String) (parse : String → Option Bool) : Bool :=
  getLocalStorageItem storage parse "monitoring.autoRefresh" false

/-- Initial `refreshInterval` state: stored interval with default `30`. -/
def initialRefreshInterval (storage : String → Option String) (parse : String → Option ℤ) : ℤ :=
  getLocalStorageItem storage parse "monitoring.refreshInterval" 30

/-! ### getNodeDifferences (app.tsx lines 546-552) -/

/-- Embeds `getNodeDifferences(configNodes, actualNodes)`: both set differences by
`Array.includes` filtering. -/
def getNodeDifferences (configNodes : List String) (actualNodes : List Node) :
    List String × List String :=
  let actualNodeNames := actualNodes.map Node.name
  let missingNodes := configNodes.filter fun n => !actualNodeNames.contains n
  let extraNodes := actualNodeNames.filter fun n => !configNodes.contains n
  (missingNodes, extraNodes)

/-! ### Topology layout engine (src/public/components/NetworkGraph.tsx)

`zoneMap` is a JS object zone → role → host-name array built by mutation; it is
embedded as insertion-ordered association lists with unique keys.  Note the
order of operations in the source: `if (!map[zone]) map[zone] = {}` runs before
the (possibly empty) `n.roles.forEach`, so a node always registers its zone. -/

/-- JS `(n.zone || "default").trim()` where `null` and the empty string are falsy. -/
def zoneOf (n : Node) : String :=
  (match n.zone with
   | some z => if z = "" then "default" else z
   | none => "default").trim

/-- role → host names, in insertion order. -/
abbrev RoleMap := List (String × List String)

/-- zone → role map, in insertion order. -/
abbrev ZoneMap := List (String × RoleMap)

/-- Embeds `if (!map[zone][role]) map[zone][role] = []; map[zone][role].push(n.name)`. -/
def pushHost (rm : RoleMap) (role name : String) : RoleMap :=
  match rm with
  | [] => [(role, [name])]
  | (r, hs) :: rest =>
    if r = role then (r, hs ++ [name]) :: rest
    else (r, hs) :: pushHost rest role name

/-- The `n.roles.forEach` pushes applied to one zone role map. -/
def addNodeRoles (rm : RoleMap) (n : Node) : RoleMap :=
  n.roles.foldl (fun acc roleRaw => pushHost acc roleRaw.trim n.name) rm

/-- One iteration of `nodes.forEach`: ensure the zone entry exists, then add the
roles of the node. -/
def addNode (zm : ZoneMap) (n : Node) : ZoneMap :=
  match zm with
  | [] => [(zoneOf n, addNodeRoles [] n)]
  | (z, rm) :: rest =>
    if z = zoneOf n then (z, addNodeRoles rm n) :: rest
    else (z, rm) :: addNode rest n

/-- The `useMemo` zoneMap (host lists are sorted afterwards, see `hostsSorted`). -/
def buildZoneMap (nodes : List Node) : ZoneMap :=
  nodes.foldl addNode []

/-- JS object property read on an association list. -/
def lookupList (key : String) : List (String × α) → Option α
  | [] => none
  | (k, v) :: rest => if key = k then some v else lookupList key rest

/-- JS `Array.sort()` on strings: lexicographic. -/
def sortStrings (l : List String) : List String :=
  l.insertionSort (· ≤ ·)

/-- Embeds `zoneMap[zone]` (empty when the zone is absent). -/
def roleMapOf (nodes : List Node) (z : String) : RoleMap :=
  (lookupList z (buildZoneMap nodes)).getD []

/-- Embeds `Object.keys(zoneMap).sort()`. -/
def zonesSorted (nodes : List Node) : List String :=
  sortStrings ((buildZoneMap nodes).map Prod.fst)

/-- Embeds `Object.keys(zoneMap[zone]).sort()` as used at render time. -/
def rolesSorted (nodes : List Node) (z : String) : List String :=
  sortStrings ((roleMapOf nodes z).map Prod.fst)

/-- Embeds `zoneMap[zone][role]` before the in-place sort. -/
def hostsOf (nodes : List Node) (z r : String) : List String :=
  (lookupList r (roleMapOf nodes z)).getD []

/-- Embeds `zoneMap[zone][role]` after `map[zone][role].sort()`. -/
def hostsSorted (nodes : List Node) (z r : String) : List String :=
  sortStrings (hostsOf nodes z r)

/-- The flat contribution of one node to `zoneMap[z][r]` (one push per matching
trimmed role occurrence); used to characterize the mutation-built map. -/
def hostContrib (n : Node) (r : String) : List String :=
  ((n.roles.map String.trim).filter fun s => s == r).map fun _ => n.name

/-- Embeds `zoneMap[z][r]` as a comprehension over the input list. -/
def collectHosts (nodes : List Node) (z r : String) : List String :=
  nodes.flatMap fun n => if zoneOf n = z then hostContrib n r else []

/-! #### Geometry (constants at NetworkGraph.tsx lines 18-24, 49-68, 129-175) -/

def zoneMargin : ℤ := 40
def roleMargin : ℤ := 20
def padding : ℤ := 10
def hostSpacing : ℤ := 18
def roleTitleHeight : ℤ := 20
def rolePadding : ℤ := 10
def zoneWidth : ℤ := 220

/-- Rendered role-block rectangle height (line 131). -/
def renderRoleBlockHeight (hostCount : ℤ) : ℤ :=
  roleTitleHeight + rolePadding + hostCount * hostSpacing

/-- Reserved role-block height in the zone-height computation (line 58). -/
def calcRoleBlockHeight (hostCount : ℤ) : ℤ :=
  roleTitleHeight + rolePadding + hostCount * hostSpacing + padding

/-- Embeds `calculatedZoneHeights` entry for one zone: reduce starting at 40. -/
def zoneHeight (nodes : List Node) (z : String) : ℤ :=
  ((roleMapOf nodes z).map fun p =>
    calcRoleBlockHeight (p.2.length : ℤ) + roleMargin).foldl (· + ·) 40

/-- An axis-aligned rectangle of the SVG output. -/
structure Rect where
  x : ℤ
  y : ℤ
  w : ℤ
  h : ℤ
  deriving DecidableEq

/-- Two rectangles do not intersect (separated on some axis). -/
def Rect.Disjoint (a b : Rect) : Prop :=
  a.x + a.w ≤ b.x ∨ b.x + b.w ≤ a.x ∨ a.y + a.h ≤ b.y ∨ b.y + b.h ≤ a.y

/-- Role blocks stacked from `offsetY = 40`, each advancing by its height plus
`roleMargin` (lines 99, 129-174). -/
def roleRectsGo (x w offsetY : ℤ) : List ℤ → List Rect
  | [] => []
  | c :: cs =>
    ⟨x, offsetY, w, renderRoleBlockHeight c⟩ ::
      roleRectsGo x w (offsetY + renderRoleBlockHeight c + roleMargin) cs

/-- The rendered role-block rectangles of one zone column at `zoneX`. -/
def roleRects (nodes : List Node) (z : String) (zoneX : ℤ) : List Rect :=
  roleRectsGo (zoneX + padding) (zoneWidth - 2 * padding) 40
    ((rolesSorted nodes z).map fun r => ((hostsSorted nodes z r).length : ℤ))

/-- Zone background rectangles: `zoneX = zoneIdx * (zoneWidth + zoneMargin)`. -/
def zoneRectsGo (nodes : List Node) (i : ℤ) : List String → List Rect
  | [] => []
  | z :: zs =>
    ⟨i * (zoneWidth + zoneMargin), 0, zoneWidth, zoneHeight nodes z⟩ ::
      zoneRectsGo nodes (i + 1) zs

/-- All zone rectangles of the layout. -/
def zoneRects (nodes : List Node) : List Rect :=
  zoneRectsGo nodes 0 (zonesSorted nodes)

/-- Concrete raw recovery body for the C2 counterexample: one shard whose files
total is `5` while the source-provided percent string is the literal `"-"`. -/
def recoveryDashRaw : List (String × RawIndexData) :=
  [("idx", ⟨some [⟨0, none, none, none, none, none,
    some ⟨none, some ⟨some 5, none, some "-"⟩⟩, none⟩]⟩)]

/-- A raw shard whose percent fields, when present, are never the literal `"-"`. -/
def RawShard.percentsNotDash (sh : RawShard) : Prop :=
  ((sh.index.getD ⟨none, none⟩).files.getD ⟨none, none, none⟩).percent ≠ some "-" ∧
  ((sh.index.getD ⟨none, none⟩).size.getD ⟨none, none, none⟩).percent ≠ some "-" ∧
  (sh.translog.getD ⟨none, none, none⟩).percent ≠ some "-"

/-- A raw node stats object missing its `os` subobject (C4 counterexample). -/
def nodeNoOsRaw : RawNodeStats :=
  ⟨some "n1", some "h1", some ["data"], none, none, some ⟨some ⟨some 100, some 50⟩⟩⟩

/-- A raw cluster stats body whose `nodes.jvm` subobject is absent (C4
counterexample). -/
def clusterNoJvmRaw : RawClusterStats :=
  ⟨some "c1", some "green", some ⟨some ["1.0"], none, none, none⟩, none⟩

/-- The nested subobjects `formatNodeStats` dereferences unconditionally. -/
def RawNodeStats.hasRequiredSubobjects (n : RawNodeStats) : Prop :=
  ∃ os fs, n.os = some os ∧ n.fs = some fs ∧
    os.mem.isSome ∧ os.swap.isSome ∧ os.cpu.isSome ∧ fs.total.isSome

/-- A node whose role list is empty (C8 counterexample input). -/
def emptyRolesNode : Node := ⟨"i1", "n1", "h1", [], some "z1"⟩

/-- A raw shard with every optional subobject absent. -/
def emptyShardRaw : RawShard := ⟨0, none, none, none, none, none, none, none⟩

/-- A raw node stats object carrying every subobject `formatNodeStats` needs. -/
def nodeFullRaw : RawNodeStats :=
  ⟨some "n1", some "h1", some ["data"], none,
    some ⟨some ⟨some 50, some 100⟩, some ⟨some 0, some 0⟩, some ⟨some 1⟩⟩,
    some ⟨some ⟨some 200, some 50⟩⟩⟩

/-! ## Theorems -/

/-- C3: For all (used, total): the shared percentage helper returns
used/total*100, which lies in [0, 100] whenever 0 ≤ used ≤ total and
total > 0; and for total = 0 it returns 0 for every used.  Proved for both
copies of the helper (formatNodeStats.ts and formatClusterStats.ts). -/
theorem derivedPercent_range (used total : ℚ) :
    (0 ≤ used → used ≤ total → 0 < total →
      getPercentage used total = used / total * 100 ∧
      getPercentageCluster used total = used / total * 100 ∧
      0 ≤ getPercentage used total ∧ getPercentage used total ≤ 100) ∧
    getPercentage used 0 = 0 ∧ getPercentageCluster used 0 = 0 := by
  refine ⟨fun h0 h1 h2 => ?_, by simp [getPercentage], by simp [getPercentageCluster]⟩
  have hne : total ≠ 0 := ne_of_gt h2
  have hval : getPercentage used total = used / total * 100 := by
    simp [getPercentage, if_pos h2]
  refine ⟨hval, by simp [getPercentageCluster, hne], ?_, ?_⟩
  · rw [hval]
    have := div_nonneg h0 (le_of_lt h2)
    nlinarith
  · rw [hval]
    have : used / total ≤ 1 := (div_le_one h2).mpr h1
    nlinarith

/-- Witness for C3 at (used, total) = (50, 100). -/
theorem derivedPercent_range_witness :
    getPercentage 50 100 = 50 ∧ getPercentageCluster 50 100 = 50 ∧
    0 ≤ getPercentage 50 100 ∧ getPercentage 50 100 ≤ 100 := by
  obtain ⟨h, -, -⟩ := derivedPercent_range 50 100
  obtain ⟨e1, e2, r1, r2⟩ := h (by norm_num) (by norm_num) (by norm_num)
  refine ⟨by rw [e1]; norm_num, by rw [e2]; norm_num, r1, r2⟩

/-- C10: reading a persisted preference is total: absent stored value or a
failing JSON parse yields the supplied typed default (`false` for the
auto-refresh flag, `30` for the refresh interval). -/
theorem getLocalStorageItem_total_default {α : Type} (storage : String → Option String)
    (parse : String → Option α) (parseB : String → Option Bool) (parseZ : String → Option ℤ)
    (key : String) (d : α) :
    (storage key = none → getLocalStorageItem storage parse key d = d) ∧
    (∀ item, storage key = some item → parse item = none →
      getLocalStorageItem storage parse key d = d) ∧
    (storage "monitoring.autoRefresh" = none → initialAutoRefresh storage parseB = false) ∧
    (storage "monitoring.refreshInterval" = none →
      initialRefreshInterval storage parseZ = 30) := by
  refine ⟨fun h => by simp [getLocalStorageItem, h], fun item h hp => ?_,
    fun h => by simp [initialAutoRefresh, getLocalStorageItem, h],
    fun h => by simp [initialRefreshInterval, getLocalStorageItem, h]⟩
  by_cases he : item = ""
  · simp [getLocalStorageItem, h, he]
  · simp [getLocalStorageItem, h, he, hp]

/-- Witness for C10: empty storage and an always-failing parser yield the
defaults. -/
theorem getLocalStorageItem_total_default_witness :
    getLocalStorageItem (fun _ => (none : Option String)) (fun _ => (none : Option ℤ)) "k" 42 = 42 ∧
    initialAutoRefresh (fun _ => none) (fun _ => none) = false ∧
    initialRefreshInterval (fun _ => none) (fun _ => none) = 30 := by
  obtain ⟨h1, -, -, -⟩ :=
    getLocalStorageItem_total_default (fun _ => (none : Option String))
      (fun _ => (none : Option ℤ)) (fun _ => none) (fun _ => none) "k" 42
  obtain ⟨-, -, hB, hZ⟩ :=
    getLocalStorageItem_total_default (fun _ => (none : Option String))
      (fun _ => (none : Option ℤ)) (fun _ => none) (fun _ => none) "k" 42
  exact ⟨h1 rfl, hB rfl, hZ rfl⟩

/-- C1 counterexample: with auto-refresh enabled and a valid 30s schedule
active, entering 29 surfaces the invalid flag and persists 29, but the
scheduling effect re-runs with `isIntervalValid = false` and therefore clears
the timer instead of keeping the previous schedule. -/
theorem interval_reject_cancels_schedule_cex :
    (handleIntervalChange 29 ⟨true, 30, true, some 30, some 30⟩).isIntervalValid = false ∧
    (handleIntervalChange 29 ⟨true, 30, true, some 30, some 30⟩).storedInterval = some 29 ∧
    (handleIntervalChange 29 ⟨true, 30, true, some 30, some 30⟩).timer = none ∧
    (handleIntervalChange 29 ⟨true, 30, true, some 30, some 30⟩).timer ≠ some 30 := by
  refine ⟨rfl, rfl, rfl, by decide⟩

/-- C1 amended: for every interval n < 30 entered while auto-refresh is
enabled, the controller surfaces the validation flag as invalid and persists
the entered value, and the scheduling effect cancels the active timer: no
refresh schedule runs until a valid interval is entered again. -/
theorem interval_reject_amended (s : RefreshState) (n : ℤ) (h1 : n < 30)
    (_h2 : s.autoRefresh = true) :
    (handleIntervalChange n s).isIntervalValid = false ∧
    (handleIntervalChange n s).storedInterval = some n ∧
    (handleIntervalChange n s).refreshInterval = n ∧
    (handleIntervalChange n s).timer = none := by
  have hn : ¬ (n ≥ 30) := not_le.mpr h1
  simp [handleIntervalChange, applyScheduleEffect, hn]

/-- Witness for C1 amended at n = 29 from a valid active 30s schedule. -/
theorem interval_reject_amended_witness :
    (handleIntervalChange 29 ⟨true, 30, true, some 30, some 30⟩).isIntervalValid = false ∧
    (handleIntervalChange 29 ⟨true, 30, true, some 30, some 30⟩).storedInterval = some 29 ∧
    (handleIntervalChange 29 ⟨true, 30, true, some 30, some 30⟩).refreshInterval = 29 ∧
    (handleIntervalChange 29 ⟨true, 30, true, some 30, some 30⟩).timer = none :=
  interval_reject_amended ⟨true, 30, true, some 30, some 30⟩ 29 (by decide) rfl

/-- C9: the node-difference helper returns empty results in both directions
when the observed records bear exactly the configured names; in general it
computes configured minus observed as missing and observed minus configured as
extra, insensitive (up to reordering of its output) to the order of either
input. -/
theorem getNodeDifferences_spec (A cfg cfg2 : List String) (rs rs2 : List Node)
    (hA : rs.map Node.name = A) (hc : cfg.Perm cfg2) (hr : rs.Perm rs2) :
    (getNodeDifferences A rs).1 = [] ∧ (getNodeDifferences A rs).2 = [] ∧
    (∀ x, x ∈ (getNodeDifferences cfg rs).1 ↔ x ∈ cfg ∧ x ∉ rs.map Node.name) ∧
    (∀ x, x ∈ (getNodeDifferences cfg rs).2 ↔ x ∈ rs.map Node.name ∧ x ∉ cfg) ∧
    (getNodeDifferences cfg rs).1.Perm (getNodeDifferences cfg2 rs2).1 ∧
    (getNodeDifferences cfg rs).2.Perm (getNodeDifferences cfg2 rs2).2 := by
  subst hA
  have hnames : (rs.map Node.name).Perm (rs2.map Node.name) := hr.map Node.name
  refine ⟨?_, ?_, ?_, ?_, ?_, ?_⟩
  · simp [getNodeDifferences, List.filter_eq_nil_iff]
  · simp [getNodeDifferences, List.filter_eq_nil_iff]
  · intro x
    simp [getNodeDifferences, List.mem_filter]
  · intro x
    simp [getNodeDifferences, List.mem_filter]
  · have hcongr : cfg.filter (fun n => !(rs.map Node.name).contains n)
        = cfg.filter (fun n => !(rs2.map Node.name).contains n) := by
      refine List.filter_congr fun a _ => ?_
      simp [hnames.mem_iff]
    show (cfg.filter _).Perm (cfg2.filter _)
    rw [hcongr]
    exact hc.filter _
  · have hcongr : (rs2.map Node.name).filter (fun n => !cfg.contains n)
        = (rs2.map Node.name).filter (fun n => !cfg2.contains n) := by
      refine List.filter_congr fun a _ => ?_
      simp [hc.mem_iff]
    show ((rs.map Node.name).filter _).Perm ((rs2.map Node.name).filter _)
    exact (hnames.filter _).trans (hcongr ▸ List.Perm.refl _)

/-- Witness for C9 on concrete inputs, including the equal-names case. -/
theorem getNodeDifferences_spec_witness :
    (getNodeDifferences ["a", "b"] [⟨"i1", "a", "h", [], none⟩, ⟨"i2", "b", "h", [], none⟩]).1 = [] ∧
    (getNodeDifferences ["a", "b"] [⟨"i1", "a", "h", [], none⟩, ⟨"i2", "b", "h", [], none⟩]).2 = [] ∧
    (getNodeDifferences ["a", "b"]
      [⟨"i1", "a", "h", [], none⟩, ⟨"i2", "b", "h", [], none⟩]).1.Perm
    (getNodeDifferences ["b", "a"]
      [⟨"i2", "b", "h", [], none⟩, ⟨"i1", "a", "h", [], none⟩]).1 := by
  obtain ⟨h1, h2, -, -, h5, -⟩ :=
    getNodeDifferences_spec ["a", "b"] ["a", "b"] ["b", "a"]
      [⟨"i1", "a", "h", [], none⟩, ⟨"i2", "b", "h", [], none⟩]
      [⟨"i2", "b", "h", [], none⟩, ⟨"i1", "a", "h", [], none⟩]
      rfl (List.Perm.swap "b" "a" [])
      (List.Perm.swap (⟨"i2", "b", "h", [], none⟩ : Node) (⟨"i1", "a", "h", [], none⟩ : Node) [])
  exact ⟨h1, h2, h5⟩

/-- C5: a refresh cycle in which the fetches of some kinds reject and others succeed
still resolves: `lastRefreshTime` is recorded once, each succeeding kind has its
fresh result is stored, each failing kind keeps its previous data and
contributes exactly its own error toast (`expectedToasts`). -/
theorem fetchAllData_partial_failure (r : FetchResults) (now : String) (s : AppState) :
    (fetchAllData r now s).lastRefreshTime = some now ∧
    (fetchAllData r now s).toasts = s.toasts ++ expectedToasts r ∧
    (fetchAllData r now s).clusterHealth =
      (match r.cluster with
       | Except.ok d => some d
       | Except.error _ => s.clusterHealth) ∧
    (fetchAllData r now s).nodesData =
      (match r.nodes with
       | Except.ok d => d
       | Except.error _ => s.nodesData) ∧
    (fetchAllData r now s).recoveryData =
      (match r.recovery with
       | Except.ok d => d
       | Except.error _ => s.recoveryData) ∧
    (fetchAllData r now s).clusterStats =
      (match r.clusterStats with
       | Except.ok d => some d
       | Except.error _ => s.clusterStats) ∧
    (fetchAllData r now s).clusterConfig =
      (match r.config with
       | Except.ok d => some d
       | Except.error _ => s.clusterConfig) ∧
    (fetchAllData r now s).snapshotsData =
      (match r.snapshots with
       | Except.ok (some l) => l
       | Except.ok none => []
       | Except.error _ => []) := by
  obtain ⟨rc, rn, rr, rst, rcf, rsn⟩ := r
  cases rc <;> cases rn <;> cases rr <;> cases rst <;> cases rcf <;>
    rcases rsn with _ | (_ | _) <;>
    simp [fetchAllData, fetchCluster, fetchNodes, fetchRecovery, fetchClusterStats,
      fetchConfig, fetchSnapshots, expectedToasts]

/-- The sentinel pattern shared by the three percent fields: the produced value
is `"-"` exactly when the total is `0`, provided the passed-through source
percent is not itself `"-"`. -/
theorem dash_sentinel_iff (t : ℤ) (pc : Option String) (hpc : pc ≠ some "-") :
    ((if t = 0 then "-" else pc.getD "0%") = "-") ↔ t = 0 := by
  split
  next h => simp [h]
  next h =>
    constructor
    · intro hcontra
      cases pc with
      | none => simp at hcontra
      | some p => exact absurd (by rw [Option.getD_some] at hcontra; rw [hcontra]) hpc
    · intro h0
      exact absurd h0 h

/-- C2 counterexample: a shard whose raw `index.files` carries `total = 5` and
the source-provided percent string `"-"` produces `files_percent = "-"` with
`files_total = 5 ≠ 0`, refuting the iff as stated. -/
theorem recovery_percent_sentinel_cex :
    (formatRecoveryStats recoveryDashRaw).map (fun rr => (rr.files_percent, rr.files_total))
      = [("-", 5)] ∧ (5 : ℤ) ≠ 0 :=
  ⟨rfl, by decide⟩

/-- C2 amended: for every produced RecoveryShardRecord, each percent field is
`"-"` iff its corresponding total is 0, provided no source-provided percent
string is itself the literal `"-"` (the code passes such strings through
unchanged when the total is nonzero). -/
theorem recovery_percent_sentinel_amended (raw : List (String × RawIndexData))
    (h : ∀ p ∈ raw, ∀ sh ∈ p.2.shards.getD [], sh.percentsNotDash) :
    ∀ rr ∈ formatRecoveryStats raw,
      ((rr.files_percent = "-") ↔ rr.files_total = 0) ∧
      ((rr.bytes_percent = "-") ↔ rr.bytes_total = 0) ∧
      ((rr.translog_percent = "-") ↔ rr.translog_total = 0) := by
  intro rr hrr
  rw [formatRecoveryStats, List.mem_flatMap] at hrr
  obtain ⟨p, hp, hm⟩ := hrr
  rw [List.mem_map] at hm
  obtain ⟨sh, hsh, rfl⟩ := hm
  obtain ⟨h1, h2, h3⟩ := h p hp sh hsh
  refine ⟨?_, ?_, ?_⟩
  · have e1 : (mkShardRecord p.1 sh).files_percent =
        (if ((sh.index.getD ⟨none, none⟩).files.getD ⟨none, none, none⟩).total.getD 0 = 0
         then "-"
         else ((sh.index.getD ⟨none, none⟩).files.getD ⟨none, none, none⟩).percent.getD "0%") :=
      rfl
    have e2 : (mkShardRecord p.1 sh).files_total =
        ((sh.index.getD ⟨none, none⟩).files.getD ⟨none, none, none⟩).total.getD 0 := rfl
    rw [e1, e2]
    exact dash_sentinel_iff _ _ h1
  · have e1 : (mkShardRecord p.1 sh).bytes_percent =
        (if ((sh.index.getD ⟨none, none⟩).size.getD ⟨none, none, none⟩).total_in_bytes.getD 0 = 0
         then "-"
         else ((sh.index.getD ⟨none, none⟩).size.getD ⟨none, none, none⟩).percent.getD "0%") :=
      rfl
    have e2 : (mkShardRecord p.1 sh).bytes_total =
        ((sh.index.getD ⟨none, none⟩).size.getD ⟨none, none, none⟩).total_in_bytes.getD 0 := rfl
    rw [e1, e2]
    exact dash_sentinel_iff _ _ h2
  · have e1 : (mkShardRecord p.1 sh).translog_percent =
        (if (sh.translog.getD ⟨none, none, none⟩).total.getD 0 = 0
         then "-"
         else (sh.translog.getD ⟨none, none, none⟩).percent.getD "0%") := rfl
    have e2 : (mkShardRecord p.1 sh).translog_total =
        (sh.translog.getD ⟨none, none, none⟩).total.getD 0 := rfl
    rw [e1, e2]
    exact dash_sentinel_iff _ _ h3

/-- Witness for C2 amended on a shard with all totals absent (defaulted 0). -/
theorem recovery_percent_sentinel_amended_witness :
    ((mkShardRecord "idx1" ⟨0, none, none, none, none, none, none, none⟩).files_percent = "-" ↔
      (mkShardRecord "idx1" ⟨0, none, none, none, none, none, none, none⟩).files_total = 0) ∧
    ((mkShardRecord "idx1" ⟨0, none, none, none, none, none, none, none⟩).bytes_percent = "-" ↔
      (mkShardRecord "idx1" ⟨0, none, none, none, none, none, none, none⟩).bytes_total = 0) ∧
    ((mkShardRecord "idx1" ⟨0, none, none, none, none, none, none, none⟩).translog_percent = "-" ↔
      (mkShardRecord "idx1" ⟨0, none, none, none, none, none, none, none⟩).translog_total = 0) :=
  recovery_percent_sentinel_amended
    [("idx1", ⟨some [⟨0, none, none, none, none, none, none, none⟩]⟩)]
    (by simp [RawShard.percentsNotDash])
    (mkShardRecord "idx1" ⟨0, none, none, none, none, none, none, none⟩)
    (by decide)

/-- Monad-law reductions for `Except`, used to evaluate the embedded do-blocks. -/
theorem except_ok_bind (a : α) (f : α → Except ε β) :
    (Except.ok a >>= f : Except ε β) = f a := rfl

/-- Embeds `map` over a successful `Except`. -/
theorem except_ok_map (a : α) (f : α → β) :
    (f <$> Except.ok a : Except ε β) = Except.ok (f a) := rfl

/-- Embeds `isOk` characterized by the existence of a success value. -/
theorem except_isOk_iff (e : Except ε α) : e.isOk = true ↔ ∃ a, e = Except.ok a := by
  cases e <;> simp [Except.isOk, Except.toBool]

/-- Embeds `formatOneNode` succeeds whenever the node carries the subobjects the code
dereferences unconditionally. -/
theorem formatOneNode_ok (id : String) (n : RawNodeStats)
    (h : n.hasRequiredSubobjects) : (formatOneNode id n).isOk = true := by
  obtain ⟨os, fs, hos, hfs, hmem, hswap, hcpu, htot⟩ := h
  obtain ⟨mem, hmem⟩ := Option.isSome_iff_exists.mp hmem
  obtain ⟨swap, hswap⟩ := Option.isSome_iff_exists.mp hswap
  obtain ⟨cpu, hcpu⟩ := Option.isSome_iff_exists.mp hcpu
  obtain ⟨tot, htot⟩ := Option.isSome_iff_exists.mp htot
  simp [formatOneNode, jsAccess, hos, hfs, hmem, hswap, hcpu, htot,
    except_ok_bind, except_ok_map, Except.isOk, Except.toBool]

/-- C4 counterexample: a node-stats document whose `os` subobject is absent
makes `formatNodeStats` throw, and a cluster-stats document whose `nodes.jvm`
subobject is absent makes `formatClusterStats` throw, instead of defaulting. -/
theorem normalizer_totality_cex :
    (formatNodeStats [("n1", nodeNoOsRaw)]).isOk = false ∧
    (formatClusterStats clusterNoJvmRaw).isOk = false :=
  ⟨rfl, rfl⟩

/-- C4 amended: `formatRecoveryStats` is total (a pure function of its input)
and processes every shard of every index entry, defaulting all absent optional
subobjects to `"-"`/`0`; but `formatNodeStats` treats `os`, `os.mem`,
`os.swap`, `os.cpu`, `fs` and `fs.total` as required — it throws when one is
absent and succeeds whenever they are all present (and `formatClusterStats`
likewise requires `nodes`, `nodes.jvm`, `nodes.jvm.mem`, `nodes.fs` and the
`indices` subobjects). -/
theorem normalizer_totality_amended :
    (∀ (raw : List (String × RawIndexData)) (p : String × RawIndexData) (sh : RawShard),
      p ∈ raw → sh ∈ p.2.shards.getD [] →
      mkShardRecord p.1 sh ∈ formatRecoveryStats raw) ∧
    (∀ (iName : String) (sh : RawShard),
      sh.source = none → sh.target = none → sh.index = none → sh.translog = none →
      mkShardRecord iName sh =
        ⟨iName, sh.id, sh.total_time_in_millis, sh.type, sh.stage,
          "-", "-", "-", "-", 0, 0, "-", 0, 0, 0, "-", 0, 0, "-", 0⟩) ∧
    (∀ nodesObj : List (String × RawNodeStats),
      (∀ p ∈ nodesObj, p.2.hasRequiredSubobjects) →
      (formatNodeStats nodesObj).isOk = true) := by
  refine ⟨?_, ?_, ?_⟩
  · intro raw p sh hp hsh
    rw [formatRecoveryStats, List.mem_flatMap]
    exact ⟨p, hp, List.mem_map_of_mem _ hsh⟩
  · intro iName sh h1 h2 h3 h4
    obtain ⟨i, t, ty, st, so, ta, ix, tl⟩ := sh
    obtain rfl : so = none := h1
    obtain rfl : ta = none := h2
    obtain rfl : ix = none := h3
    obtain rfl : tl = none := h4
    rfl
  · intro nodesObj h
    induction nodesObj with
    | nil => rfl
    | cons p rest ih =>
      have hp := formatOneNode_ok p.1 p.2 (h p (List.mem_cons_self p rest))
      have hrest := ih fun q hq => h q (List.mem_cons_of_mem p hq)
      obtain ⟨out, hout⟩ := (except_isOk_iff _).mp hp
      obtain ⟨outs, houts⟩ := (except_isOk_iff _).mp hrest
      simp [formatNodeStats, hout, houts, except_ok_bind, Except.isOk, Except.toBool]

/-- Witness for C4 amended: concrete all-defaults shard and fully-populated
node. -/
theorem normalizer_totality_amended_witness :
    (mkShardRecord "i" emptyShardRaw ∈ formatRecoveryStats [("i", ⟨some [emptyShardRaw]⟩)]) ∧
    mkShardRecord "i" emptyShardRaw =
      ⟨"i", 0, none, none, none, "-", "-", "-", "-", 0, 0, "-", 0, 0, 0, "-", 0, 0, "-", 0⟩ ∧
    (formatNodeStats [("n1", nodeFullRaw)]).isOk = true := by
  obtain ⟨ha, hb, hc⟩ := normalizer_totality_amended
  refine ⟨ha [("i", ⟨some [emptyShardRaw]⟩)] ("i", ⟨some [emptyShardRaw]⟩) emptyShardRaw
      (List.mem_singleton.mpr rfl) ?_,
    hb "i" emptyShardRaw rfl rfl rfl rfl,
    hc [("n1", nodeFullRaw)] ?_⟩
  · simp [emptyShardRaw]
  · intro p hp
    rw [List.mem_singleton] at hp
    subst hp
    exact ⟨_, _, rfl, rfl, rfl, rfl, rfl, rfl⟩

/-! #### Characterization of the mutation-built zone map -/

/-- Keys after `pushHost`: unchanged when the role exists, appended otherwise. -/
theorem pushHost_keys (role name : String) (rm : RoleMap) :
    (pushHost rm role name).map Prod.fst =
      if role ∈ rm.map Prod.fst then rm.map Prod.fst
      else rm.map Prod.fst ++ [role] := by
  induction rm with
  | nil => simp [pushHost]
  | cons p rest ih =>
    obtain ⟨k, hs⟩ := p
    by_cases hk : k = role
    · subst hk
      simp [pushHost]
    · rw [pushHost, if_neg hk]
      by_cases hmem : role ∈ rest.map Prod.fst
      · simp [ih, hmem, Ne.symm hk]
      · simp [ih, hmem, Ne.symm hk]

/-- Lookup after `pushHost`: the pushed name is appended to the list of that role. -/
theorem pushHost_lookup (role name r : String) (rm : RoleMap) :
    (lookupList r (pushHost rm role name)).getD [] =
      if r = role then ((lookupList r rm).getD []) ++ [name]
      else (lookupList r rm).getD [] := by
  induction rm with
  | nil =>
    by_cases h : r = role
    · simp [pushHost, lookupList, h]
    · simp [pushHost, lookupList, h]
  | cons p rest ih =>
    obtain ⟨k, hs⟩ := p
    by_cases hk : k = role
    · rw [pushHost, if_pos hk]
      by_cases hr : r = k
      · have hrr : r = role := hr.trans hk
        simp [lookupList, hr, hrr, hk]
      · have hne : r ≠ role := fun e => hr (e.trans hk.symm)
        simp [lookupList, hr, hne, hk]
    · rw [pushHost, if_neg hk]
      by_cases hr : r = k
      · have hne : r ≠ role := fun e => hk (hr.symm.trans e)
        simp [lookupList, hr, hne, hk]
      · simp [lookupList, hr, ih]

/-- Keys after folding the roles of a node in: the trimmed roles are appended. -/
theorem addRoles_keys_mem (r name : String) (roles : List String) (rm : RoleMap) :
    (r ∈ (roles.foldl (fun acc roleRaw => pushHost acc roleRaw.trim name) rm).map Prod.fst) ↔
      r ∈ rm.map Prod.fst ∨ r ∈ roles.map String.trim := by
  induction roles generalizing rm with
  | nil => simp
  | cons raw rest ih =>
    rw [List.foldl_cons, ih]
    rw [pushHost_keys]
    by_cases hmem : raw.trim ∈ rm.map Prod.fst
    · rw [if_pos hmem]
      simp only [List.map_cons, List.mem_cons]
      constructor
      · rintro (h | h)
        · exact Or.inl h
        · exact Or.inr (Or.inr h)
      · rintro (h | rfl | h)
        · exact Or.inl h
        · exact Or.inl hmem
        · exact Or.inr h
    · rw [if_neg hmem]
      simp only [List.mem_append, List.mem_singleton, List.map_cons, List.mem_cons]
      tauto

/-- Key nodup is preserved by folding the roles of a node in. -/
theorem addRoles_keys_nodup (name : String) (roles : List String) (rm : RoleMap)
    (h : (rm.map Prod.fst).Nodup) :
    ((roles.foldl (fun acc roleRaw => pushHost acc roleRaw.trim name) rm).map Prod.fst).Nodup := by
  induction roles generalizing rm with
  | nil => exact h
  | cons raw rest ih =>
    rw [List.foldl_cons]
    refine ih _ ?_
    rw [pushHost_keys]
    by_cases hmem : raw.trim ∈ rm.map Prod.fst
    · rw [if_pos hmem]; exact h
    · rw [if_neg hmem]
      simpa [List.nodup_append, hmem] using h

/-- Host-list lookup after folding the roles of a node in. -/
theorem addRoles_lookup (name r : String) (roles : List String) (rm : RoleMap) :
    (lookupList r (roles.foldl (fun acc roleRaw => pushHost acc roleRaw.trim name) rm)).getD [] =
      ((lookupList r rm).getD []) ++
        (((roles.map String.trim).filter fun s => s == r).map fun _ => name) := by
  induction roles generalizing rm with
  | nil => simp
  | cons raw rest ih =>
    rw [List.foldl_cons, ih, pushHost_lookup]
    by_cases hr : r = raw.trim
    · rw [if_pos hr]
      simp [List.filter_cons, hr.symm, List.append_assoc]
    · rw [if_neg hr]
      have : ¬ (raw.trim == r) = true := by simpa using fun e => hr e.symm
      simp [List.filter_cons, this]

/-- Keys after `addNode`: unchanged when the zone exists, appended otherwise. -/
theorem addNode_keys (n : Node) (zm : ZoneMap) :
    (addNode zm n).map Prod.fst =
      if zoneOf n ∈ zm.map Prod.fst then zm.map Prod.fst
      else zm.map Prod.fst ++ [zoneOf n] := by
  induction zm with
  | nil => simp [addNode]
  | cons p rest ih =>
    obtain ⟨z, rm⟩ := p
    by_cases hz : z = zoneOf n
    · subst hz
      simp [addNode]
    · rw [addNode, if_neg hz]
      by_cases hmem : zoneOf n ∈ rest.map Prod.fst
      · simp [ih, hmem, Ne.symm hz]
      · simp [ih, hmem, Ne.symm hz]

/-- Role-map lookup after `addNode`. -/
theorem addNode_lookup (n : Node) (z : String) (zm : ZoneMap) :
    (lookupList z (addNode zm n)).getD [] =
      if z = zoneOf n then addNodeRoles ((lookupList z zm).getD []) n
      else (lookupList z zm).getD [] := by
  induction zm with
  | nil =>
    by_cases h : z = zoneOf n
    · simp [addNode, lookupList, h]
    · simp [addNode, lookupList, h]
  | cons p rest ih =>
    obtain ⟨k, rm⟩ := p
    by_cases hk : k = zoneOf n
    · rw [addNode, if_pos hk]
      by_cases hz : z = k
      · have hzz : z = zoneOf n := hz.trans hk
        simp [lookupList, hz, hzz, hk]
      · have hne : z ≠ zoneOf n := fun e => hz (e.trans hk.symm)
        simp [lookupList, hz, hne, hk]
    · rw [addNode, if_neg hk]
      by_cases hz : z = k
      · have hne : z ≠ zoneOf n := fun e => hk (hz.symm.trans e)
        simp [lookupList, hz, hne, hk]
      · simp [lookupList, hz, ih]

/-- Unfolding `collectHosts` over a cons cell. -/
theorem collectHosts_cons (n : Node) (rest : List Node) (z r : String) :
    collectHosts (n :: rest) z r =
      (if zoneOf n = z then hostContrib n r else []) ++ collectHosts rest z r := by
  simp [collectHosts]

/-- The host list stored at `(z, r)` after folding nodes into any zone map. -/
theorem foldl_addNode_hosts (z r : String) (ns : List Node) :
    ∀ zm : ZoneMap,
      (lookupList r ((lookupList z (ns.foldl addNode zm)).getD [])).getD [] =
        (lookupList r ((lookupList z zm).getD [])).getD [] ++ collectHosts ns z r := by
  induction ns with
  | nil => intro zm; simp [collectHosts]
  | cons n rest ih =>
    intro zm
    rw [List.foldl_cons, ih (addNode zm n), addNode_lookup, collectHosts_cons]
    by_cases hz : z = zoneOf n
    · rw [if_pos hz, if_pos hz.symm, addNodeRoles, addRoles_lookup]
      rw [hostContrib, List.append_assoc]
    · rw [if_neg hz, if_neg fun e => hz e.symm]
      simp

/-- Zone keys after folding nodes into any zone map. -/
theorem foldl_addNode_zoneKeys (z : String) (ns : List Node) :
    ∀ zm : ZoneMap,
      (z ∈ (ns.foldl addNode zm).map Prod.fst ↔
        z ∈ zm.map Prod.fst ∨ ∃ n ∈ ns, zoneOf n = z) := by
  induction ns with
  | nil => intro zm; simp
  | cons n rest ih =>
    intro zm
    rw [List.foldl_cons, ih (addNode zm n), addNode_keys]
    by_cases hmem : zoneOf n ∈ zm.map Prod.fst
    · rw [if_pos hmem]
      constructor
      · rintro (h | ⟨m, hm, hmz⟩)
        · exact Or.inl h
        · exact Or.inr ⟨m, List.mem_cons_of_mem n hm, hmz⟩
      · rintro (h | ⟨m, hm, hmz⟩)
        · exact Or.inl h
        · rcases List.mem_cons.mp hm with rfl | hm2
          · exact Or.inl (hmz ▸ hmem)
          · exact Or.inr ⟨m, hm2, hmz⟩
    · rw [if_neg hmem]
      simp only [List.mem_append, List.mem_cons, List.not_mem_nil, or_false]
      constructor
      · rintro ((h | h) | ⟨m, hm, hmz⟩)
        · exact Or.inl h
        · exact Or.inr ⟨n, Or.inl rfl, h.symm⟩
        · exact Or.inr ⟨m, Or.inr hm, hmz⟩
      · rintro (h | ⟨m, hm, hmz⟩)
        · exact Or.inl (Or.inl h)
        · rcases hm with rfl | hm2
          · exact Or.inl (Or.inr hmz.symm)
          · exact Or.inr ⟨m, hm2, hmz⟩

/-- Zone keys are duplicate-free. -/
theorem foldl_addNode_zoneKeys_nodup (ns : List Node) :
    ∀ zm : ZoneMap, (zm.map Prod.fst).Nodup → ((ns.foldl addNode zm).map Prod.fst).Nodup := by
  induction ns with
  | nil => exact fun zm h => h
  | cons n rest ih =>
    intro zm h
    rw [List.foldl_cons]
    refine ih _ ?_
    rw [addNode_keys]
    by_cases hmem : zoneOf n ∈ zm.map Prod.fst
    · rw [if_pos hmem]; exact h
    · rw [if_neg hmem]
      simpa [List.nodup_append, hmem] using h

/-- Role keys at a zone after folding nodes into any zone map. -/
theorem foldl_addNode_roleKeys (z r : String) (ns : List Node) :
    ∀ zm : ZoneMap,
      (r ∈ ((lookupList z (ns.foldl addNode zm)).getD []).map Prod.fst ↔
        r ∈ ((lookupList z zm).getD []).map Prod.fst ∨
          ∃ n ∈ ns, zoneOf n = z ∧ r ∈ n.roles.map String.trim) := by
  induction ns with
  | nil => intro zm; simp
  | cons n rest ih =>
    intro zm
    rw [List.foldl_cons, ih (addNode zm n), addNode_lookup]
    by_cases hz : z = zoneOf n
    · rw [if_pos hz, addNodeRoles, addRoles_keys_mem]
      constructor
      · rintro ((h | h) | h)
        · exact Or.inl h
        · exact Or.inr ⟨n, List.mem_cons_self n rest, hz.symm, h⟩
        · obtain ⟨m, hm, hmz, hmr⟩ := h
          exact Or.inr ⟨m, List.mem_cons_of_mem n hm, hmz, hmr⟩
      · rintro (h | ⟨m, hm, hmz, hmr⟩)
        · exact Or.inl (Or.inl h)
        · rcases List.mem_cons.mp hm with rfl | hm2
          · exact Or.inl (Or.inr hmr)
          · exact Or.inr ⟨m, hm2, hmz, hmr⟩
    · rw [if_neg hz]
      constructor
      · rintro (h | ⟨m, hm, hmz, hmr⟩)
        · exact Or.inl h
        · exact Or.inr ⟨m, List.mem_cons_of_mem n hm, hmz, hmr⟩
      · rintro (h | ⟨m, hm, hmz, hmr⟩)
        · exact Or.inl h
        · rcases List.mem_cons.mp hm with rfl | hm2
          · exact absurd hmz.symm hz
          · exact Or.inr ⟨m, hm2, hmz, hmr⟩

/-- Role keys at every zone are duplicate-free. -/
theorem foldl_addNode_roleKeys_nodup (ns : List Node) :
    ∀ zm : ZoneMap, (∀ z2, (((lookupList z2 zm).getD []).map Prod.fst).Nodup) →
      ∀ z, (((lookupList z (ns.foldl addNode zm)).getD []).map Prod.fst).Nodup := by
  induction ns with
  | nil => exact fun zm h z => h z
  | cons n rest ih =>
    intro zm h
    rw [List.foldl_cons]
    refine ih _ fun z2 => ?_
    rw [addNode_lookup]
    by_cases hz : z2 = zoneOf n
    · rw [if_pos hz, addNodeRoles]
      exact addRoles_keys_nodup _ _ _ (h z2)
    · rw [if_neg hz]
      exact h z2

/-- Embeds `zoneMap[z][r]` equals the order-preserving comprehension over the input. -/
theorem hostsOf_eq_collectHosts (nodes : List Node) (z r : String) :
    hostsOf nodes z r = collectHosts nodes z r := by
  have h := foldl_addNode_hosts z r nodes []
  simpa [hostsOf, roleMapOf, buildZoneMap, lookupList] using h

/-- A zone key exists iff some node maps to it. -/
theorem mem_zoneKeys (nodes : List Node) (z : String) :
    z ∈ (buildZoneMap nodes).map Prod.fst ↔ ∃ n ∈ nodes, zoneOf n = z := by
  have h := foldl_addNode_zoneKeys z nodes []
  simpa [buildZoneMap] using h

/-- Zone keys are duplicate-free. -/
theorem zoneKeys_nodup (nodes : List Node) : ((buildZoneMap nodes).map Prod.fst).Nodup := by
  have h := foldl_addNode_zoneKeys_nodup nodes [] (by simp)
  simpa [buildZoneMap] using h

/-- A role key exists at a zone iff some node of that zone carries the role. -/
theorem mem_roleKeys (nodes : List Node) (z r : String) :
    r ∈ (roleMapOf nodes z).map Prod.fst ↔
      ∃ n ∈ nodes, zoneOf n = z ∧ r ∈ n.roles.map String.trim := by
  have h := foldl_addNode_roleKeys z r nodes []
  simpa [roleMapOf, buildZoneMap, lookupList] using h

/-- Role keys at every zone are duplicate-free. -/
theorem roleKeys_nodup (nodes : List Node) (z : String) :
    ((roleMapOf nodes z).map Prod.fst).Nodup := by
  have h := foldl_addNode_roleKeys_nodup nodes [] (by simp [lookupList]) z
  simpa [roleMapOf, buildZoneMap] using h

/-- Embeds `sortStrings` output is sorted. -/
theorem sortStrings_sorted (l : List String) : (sortStrings l).Sorted (· ≤ ·) :=
  List.sorted_insertionSort _ l

/-- Embeds `sortStrings` permutes its input. -/
theorem sortStrings_perm (l : List String) : (sortStrings l).Perm l :=
  List.perm_insertionSort _ l

/-- Sorting is invariant under permutation of the input. -/
theorem sortStrings_eq_of_perm {l₁ l₂ : List String} (h : l₁.Perm l₂) :
    sortStrings l₁ = sortStrings l₂ :=
  List.eq_of_perm_of_sorted
    ((sortStrings_perm l₁).trans (h.trans (sortStrings_perm l₂).symm))
    (sortStrings_sorted l₁) (sortStrings_sorted l₂)

/-- Membership in a sorted list. -/
theorem mem_sortStrings (l : List String) (x : String) : x ∈ sortStrings l ↔ x ∈ l :=
  (sortStrings_perm l).mem_iff

/-- Embeds `flatMap` respects permutation of the outer list. -/
theorem flatMap_perm_of_perm (f : α → List β) {l₁ l₂ : List α} (h : l₁.Perm l₂) :
    (l₁.flatMap f).Perm (l₂.flatMap f) := by
  induction h with
  | nil => exact List.Perm.refl _
  | cons x h2 ih => simpa using ih.append_left (f x)
  | swap x y l =>
    simp only [List.flatMap_cons]
    rw [← List.append_assoc, ← List.append_assoc]
    exact List.Perm.append_right _ List.perm_append_comm
  | trans h1 h2 ih1 ih2 => exact ih1.trans ih2

/-- Two duplicate-free lists with the same members sort identically. -/
theorem sortStrings_eq_of_nodup_of_mem_iff {l₁ l₂ : List String}
    (h₁ : l₁.Nodup) (h₂ : l₂.Nodup) (h : ∀ x, x ∈ l₁ ↔ x ∈ l₂) :
    sortStrings l₁ = sortStrings l₂ :=
  sortStrings_eq_of_perm ((List.perm_ext_iff_of_nodup h₁ h₂).mpr h)

/-- Membership in the host contribution of one node. -/
theorem mem_hostContrib (n : Node) (r x : String) :
    x ∈ hostContrib n r ↔ n.name = x ∧ r ∈ n.roles.map String.trim := by
  simp only [hostContrib, List.mem_map, List.mem_filter, beq_iff_eq]
  constructor
  · rintro ⟨a, ⟨ha, rfl⟩, rfl⟩
    exact ⟨rfl, ha⟩
  · rintro ⟨rfl, hr⟩
    exact ⟨r, ⟨hr, rfl⟩, rfl⟩

/-- C7: the layout engine is deterministic and order-insensitive: permuting the
input node records leaves the sorted zone list, the sorted role list of each zone
and each (zone, role) sorted host list unchanged, and all three are sorted
lexicographically. -/
theorem layout_perm_invariant (nodes nodes2 : List Node) (h : nodes.Perm nodes2) :
    zonesSorted nodes = zonesSorted nodes2 ∧
    (∀ z, rolesSorted nodes z = rolesSorted nodes2 z) ∧
    (∀ z r, hostsSorted nodes z r = hostsSorted nodes2 z r) ∧
    (zonesSorted nodes).Sorted (· ≤ ·) ∧
    (∀ z, (rolesSorted nodes z).Sorted (· ≤ ·)) ∧
    (∀ z r, (hostsSorted nodes z r).Sorted (· ≤ ·)) := by
  refine ⟨?_, ?_, ?_, sortStrings_sorted _, fun z => sortStrings_sorted _,
    fun z r => sortStrings_sorted _⟩
  · refine sortStrings_eq_of_nodup_of_mem_iff (zoneKeys_nodup nodes) (zoneKeys_nodup nodes2)
      fun z => ?_
    rw [mem_zoneKeys, mem_zoneKeys]
    constructor
    · rintro ⟨n, hn, e⟩
      exact ⟨n, h.mem_iff.mp hn, e⟩
    · rintro ⟨n, hn, e⟩
      exact ⟨n, h.mem_iff.mpr hn, e⟩
  · intro z
    refine sortStrings_eq_of_nodup_of_mem_iff (roleKeys_nodup nodes z) (roleKeys_nodup nodes2 z)
      fun r => ?_
    rw [mem_roleKeys, mem_roleKeys]
    constructor
    · rintro ⟨n, hn, e, hr⟩
      exact ⟨n, h.mem_iff.mp hn, e, hr⟩
    · rintro ⟨n, hn, e, hr⟩
      exact ⟨n, h.mem_iff.mpr hn, e, hr⟩
  · intro z r
    rw [hostsSorted, hostsSorted, hostsOf_eq_collectHosts, hostsOf_eq_collectHosts]
    exact sortStrings_eq_of_perm (flatMap_perm_of_perm _ h)

/-- Witness for C7 on a two-node permutation. -/
theorem layout_perm_invariant_witness :
    zonesSorted [⟨"i1", "a", "h1", ["data"], some "z"⟩, ⟨"i2", "b", "h2", ["data"], none⟩] =
      zonesSorted [⟨"i2", "b", "h2", ["data"], none⟩, ⟨"i1", "a", "h1", ["data"], some "z"⟩] ∧
    hostsSorted [⟨"i1", "a", "h1", ["data"], some "z"⟩, ⟨"i2", "b", "h2", ["data"], none⟩] "z" "data" =
      hostsSorted [⟨"i2", "b", "h2", ["data"], none⟩, ⟨"i1", "a", "h1", ["data"], some "z"⟩] "z" "data" ∧
    (zonesSorted [⟨"i1", "a", "h1", ["data"], some "z"⟩, ⟨"i2", "b", "h2", ["data"], none⟩]).Sorted (· ≤ ·) := by
  obtain ⟨h1, -, h3, h4, -, -⟩ :=
    layout_perm_invariant
      [⟨"i1", "a", "h1", ["data"], some "z"⟩, ⟨"i2", "b", "h2", ["data"], none⟩]
      [⟨"i2", "b", "h2", ["data"], none⟩, ⟨"i1", "a", "h1", ["data"], some "z"⟩]
      (List.Perm.swap (⟨"i2", "b", "h2", ["data"], none⟩ : Node)
        (⟨"i1", "a", "h1", ["data"], some "z"⟩ : Node) [])
  exact ⟨h1, h3 "z" "data", h4⟩

/-- C8 counterexample: a node with an empty role list still registers its zone
in the grouping — the layout of `[emptyRolesNode]` has zone "z1", while
omitting the node entirely yields no zone at all, so the node is not omitted
from every zone grouping. -/
theorem empty_roles_zone_registered_cex :
    emptyRolesNode.roles = [] ∧
    zonesSorted [emptyRolesNode] = [zoneOf emptyRolesNode] ∧
    zonesSorted ([] : List Node) = [] ∧
    zonesSorted [emptyRolesNode] ≠ zonesSorted ([] : List Node) := by
  refine ⟨rfl, rfl, rfl, ?_⟩
  show ([zoneOf emptyRolesNode] : List String) ≠ []
  exact List.cons_ne_nil _ _

/-- C8 amended: a node with an empty role list contributes no role group, no
host entry and no label position — the role and host groupings coincide with
those of the input with empty-role nodes removed, and a name appears in a
(zone, role) host list only if a node bearing that name actually carries the
role in that zone — but its zone is still registered, so it can produce an
otherwise-empty zone block (see the counterexample). -/
theorem empty_roles_amended (nodes : List Node) (z r x : String) :
    rolesSorted nodes z = rolesSorted (nodes.filter fun n => !n.roles.isEmpty) z ∧
    hostsSorted nodes z r = hostsSorted (nodes.filter fun n => !n.roles.isEmpty) z r ∧
    (x ∈ hostsSorted nodes z r ↔
      ∃ n ∈ nodes, n.name = x ∧ zoneOf n = z ∧ r ∈ n.roles.map String.trim) := by
  refine ⟨?_, ?_, ?_⟩
  · refine sortStrings_eq_of_nodup_of_mem_iff (roleKeys_nodup _ _) (roleKeys_nodup _ _)
      fun s => ?_
    rw [mem_roleKeys, mem_roleKeys]
    constructor
    · rintro ⟨n, hn, hz2, hr2⟩
      refine ⟨n, List.mem_filter.mpr ⟨hn, ?_⟩, hz2, hr2⟩
      rcases hroles : n.roles with _ | ⟨a, as⟩
      · rw [hroles] at hr2
        simp at hr2
      · simp [hroles]
    · rintro ⟨n, hn, hz2, hr2⟩
      exact ⟨n, (List.mem_filter.mp hn).1, hz2, hr2⟩
  · have hc : collectHosts nodes z r = collectHosts (nodes.filter fun n => !n.roles.isEmpty) z r := by
      induction nodes with
      | nil => rfl
      | cons n rest ih =>
        rw [collectHosts_cons, List.filter_cons]
        by_cases hb : (!n.roles.isEmpty) = true
        · rw [if_pos hb, collectHosts_cons, ih]
        · have hroles : n.roles = [] := by
            simpa [List.isEmpty_iff] using hb
          have hempty : hostContrib n r = [] := by simp [hostContrib, hroles]
          rw [if_neg hb, ih, hempty]
          simp
    rw [hostsSorted, hostsSorted, hostsOf_eq_collectHosts, hostsOf_eq_collectHosts, hc]
  · rw [hostsSorted, mem_sortStrings, hostsOf_eq_collectHosts]
    simp only [collectHosts, List.mem_flatMap]
    constructor
    · rintro ⟨n, hn, hx⟩
      by_cases hz2 : zoneOf n = z
      · rw [if_pos hz2] at hx
        obtain ⟨hname, hrole⟩ := (mem_hostContrib n r x).mp hx
        exact ⟨n, hn, hname, hz2, hrole⟩
      · rw [if_neg hz2] at hx
        exact absurd hx (List.not_mem_nil x)
    · rintro ⟨n, hn, hname, hz2, hrole⟩
      refine ⟨n, hn, ?_⟩
      rw [if_pos hz2]
      exact (mem_hostContrib n r x).mpr ⟨hname, hrole⟩

/-- Rendered role-block heights are positive for nonnegative host counts. -/
theorem renderRoleBlockHeight_pos (c : ℤ) (hc : 0 ≤ c) : 0 < renderRoleBlockHeight c := by
  simp only [renderRoleBlockHeight, roleTitleHeight, rolePadding, hostSpacing]
  nlinarith

/-- Every stacked role block lies at or below the running offset. -/
theorem roleRectsGo_y_lb (x w : ℤ) (counts : List ℤ) (hc : ∀ c ∈ counts, 0 ≤ c) :
    ∀ off, ∀ rect ∈ roleRectsGo x w off counts, off ≤ rect.y := by
  induction counts with
  | nil =>
    intro off rect h
    simp [roleRectsGo] at h
  | cons c cs ih =>
    intro off rect h
    rw [roleRectsGo] at h
    rcases List.mem_cons.mp h with rfl | h2
    · exact le_refl _
    · have hpos := renderRoleBlockHeight_pos c (hc c (List.mem_cons_self c cs))
      have h3 := ih (fun d hd => hc d (List.mem_cons_of_mem c hd))
        (off + renderRoleBlockHeight c + roleMargin) rect h2
      have hm : (0 : ℤ) < roleMargin := by norm_num [roleMargin]
      linarith

/-- Stacked role blocks are pairwise disjoint: each block ends strictly above
the top of the next one because the accumulated offset adds the block height plus
the positive `roleMargin`. -/
theorem roleRectsGo_pairwise (x w : ℤ) (counts : List ℤ) (hc : ∀ c ∈ counts, 0 ≤ c) :
    ∀ off, (roleRectsGo x w off counts).Pairwise Rect.Disjoint := by
  induction counts with
  | nil =>
    intro off
    simp [roleRectsGo]
  | cons c cs ih =>
    intro off
    rw [roleRectsGo]
    refine List.Pairwise.cons (fun rect hrect => ?_)
      (ih (fun d hd => hc d (List.mem_cons_of_mem c hd)) _)
    have h3 := roleRectsGo_y_lb x w cs (fun d hd => hc d (List.mem_cons_of_mem c hd))
      (off + renderRoleBlockHeight c + roleMargin) rect hrect
    have hm : (0 : ℤ) < roleMargin := by norm_num [roleMargin]
    refine Or.inr (Or.inr (Or.inl ?_))
    show off + renderRoleBlockHeight c ≤ rect.y
    linarith

/-- Every zone rectangle lies at or right of its starting column. -/
theorem zoneRectsGo_x_lb (nodes : List Node) (zs : List String) :
    ∀ i : ℤ, ∀ rect ∈ zoneRectsGo nodes i zs, i * (zoneWidth + zoneMargin) ≤ rect.x := by
  induction zs with
  | nil =>
    intro i rect h
    simp [zoneRectsGo] at h
  | cons z rest ih =>
    intro i rect h
    rw [zoneRectsGo] at h
    rcases List.mem_cons.mp h with rfl | h2
    · exact le_refl _
    · have h3 := ih (i + 1) rect h2
      have hpos : (0 : ℤ) < zoneWidth + zoneMargin := by norm_num [zoneWidth, zoneMargin]
      nlinarith

/-- Zone rectangles are pairwise disjoint: consecutive columns are separated by
the positive `zoneMargin`. -/
theorem zoneRectsGo_pairwise (nodes : List Node) (zs : List String) :
    ∀ i : ℤ, (zoneRectsGo nodes i zs).Pairwise Rect.Disjoint := by
  induction zs with
  | nil =>
    intro i
    simp [zoneRectsGo]
  | cons z rest ih =>
    intro i
    rw [zoneRectsGo]
    refine List.Pairwise.cons (fun rect hrect => ?_) (ih (i + 1))
    have h3 := zoneRectsGo_x_lb nodes rest (i + 1) rect hrect
    refine Or.inl ?_
    show i * (zoneWidth + zoneMargin) + zoneWidth ≤ rect.x
    have hstep : i * (zoneWidth + zoneMargin) + zoneWidth ≤ (i + 1) * (zoneWidth + zoneMargin) := by
      simp only [zoneWidth, zoneMargin]
      nlinarith
    linarith

/-- Heights of the stacked role blocks. -/
theorem roleRectsGo_map_h (x w : ℤ) (counts : List ℤ) :
    ∀ off, (roleRectsGo x w off counts).map Rect.h = counts.map renderRoleBlockHeight := by
  induction counts with
  | nil =>
    intro off
    simp [roleRectsGo]
  | cons c cs ih =>
    intro off
    simp [roleRectsGo, ih]

/-- Abscissas of the zone rectangles. -/
theorem zoneRectsGo_map_x (nodes : List Node) (zs : List String) :
    ∀ i : ℤ, (zoneRectsGo nodes i zs).map Rect.x =
      (List.range zs.length).map fun k : ℕ => (i + (k : ℤ)) * (zoneWidth + zoneMargin) := by
  induction zs with
  | nil =>
    intro i
    simp [zoneRectsGo]
  | cons z rest ih =>
    intro i
    rw [zoneRectsGo]
    rw [List.length_cons, List.range_succ_eq_map]
    simp only [List.map_cons, List.map_map]
    refine congrArg₂ List.cons (by push_cast; ring) ?_
    rw [ih (i + 1)]
    refine List.map_congr_left fun k hk => ?_
    simp only [Function.comp]
    push_cast
    ring

/-- C6: in every generated layout no two role-block rectangles within a zone
intersect and no two zone rectangles intersect; each role block height is
title-height + padding + host count × per-host spacing, and zone k sits at
x = k × (zone width + inter-zone margin). -/
theorem layout_no_overlap (nodes : List Node) :
    (∀ z zoneX, (roleRects nodes z zoneX).Pairwise Rect.Disjoint) ∧
    (zoneRects nodes).Pairwise Rect.Disjoint ∧
    (∀ z zoneX, (roleRects nodes z zoneX).map Rect.h =
      (rolesSorted nodes z).map fun roleName =>
        roleTitleHeight + rolePadding + ((hostsSorted nodes z roleName).length : ℤ) * hostSpacing) ∧
    (zoneRects nodes).map Rect.x =
      (List.range (zonesSorted nodes).length).map
        fun k : ℕ => (k : ℤ) * (zoneWidth + zoneMargin) := by
  refine ⟨fun z zoneX => ?_, zoneRectsGo_pairwise nodes _ 0, fun z zoneX => ?_, ?_⟩
  · refine roleRectsGo_pairwise _ _ _ (fun c hc => ?_) _
    rw [List.mem_map] at hc
    obtain ⟨r2, -, rfl⟩ := hc
    exact Int.natCast_nonneg _
  · rw [roleRects, roleRectsGo_map_h, List.map_map]
    rfl
  · rw [zoneRects, zoneRectsGo_map_x]
    refine List.map_congr_left fun k hk => ?_
    ring

end Monitoring
